import Mathlib

/-!
Shallow embedding of the stackset-controller core (`pkg/core`): the data
model (StackSet, Stack, StackContainer), the lifecycle decider
(`NewStack`, `MarkExpiredStacks`) and the resource generators
(`GenerateIngress`, `GenerateDeployment`, `GenerateService`,
`GenerateHPA`).  Go maps are modelled as association lists, Go pointers
as `Option`, Go float64 traffic weights as `Rat`, Go `int32`/`int64` as
`Int`, timestamps as `Int`.  In-place mutation through pointers is
modelled by explicit state passing (a function that mutates its input
returns the updated value alongside its result).
-/

/-- Go `map[string]string`, modelled as an association list; lookup takes
the first binding for a key, and all operations below keep at most one
binding per key when the input does. -/
abbrev LabelMap := List (String × String)

/-- First-match association-list lookup, the read of a Go string map. -/
def lookupLabel (m : LabelMap) (k : String) : Option String :=
  match m with
  | [] => none
  | p :: t => if p.1 = k then some p.2 else lookupLabel t k

/-- Go map write `m[k] = v`: replace the binding if the key is present,
append otherwise. -/
def setLabel (m : LabelMap) (k v : String) : LabelMap :=
  if (lookupLabel m k).isSome then
    m.map (fun p => if p.1 = k then (k, v) else p)
  else
    m ++ [(k, v)]

/-- Modelled from the spec: the `mergeLabels` helper (declared outside
src/) merges label maps left to right, later maps overriding earlier
ones. -/
def mergeLabels (ms : List LabelMap) : LabelMap :=
  ms.foldl (fun acc m => m.foldl (fun a p => setLabel a p.1 p.2) acc) []

/-- Go `mapCopy`: with value semantics the copy is the map itself. -/
def mapCopy (m : LabelMap) : LabelMap := m

/-- `k8s.io/apimachinery` `intstr.IntOrString`. -/
inductive IntOrString
  | int (v : Int)
  | str (s : String)
  deriving DecidableEq, Repr

/-- `corev1.ServicePort`, restricted to the fields the core reads. -/
structure ServicePort where
  name : String := ""
  protocol : String := ""
  port : Int := 0
  targetPort : IntOrString := IntOrString.int 0
  deriving DecidableEq, Repr

/-- `corev1.ContainerPort`, restricted to the fields the core reads. -/
structure ContainerPort where
  name : String := ""
  containerPort : Int := 0
  protocol : String := ""
  deriving DecidableEq, Repr

/-- `corev1.Container`, restricted to the fields the core reads. -/
structure Container where
  name : String := ""
  ports : List ContainerPort := []
  deriving DecidableEq, Repr

/-- `corev1.PodTemplateSpec`: its `ObjectMeta.Labels` and
`Spec.Containers` are the only fields the core touches. -/
structure PodTemplateSpec where
  labels : LabelMap := []
  containers : List Container := []
  deriving DecidableEq, Repr

/-- `metav1.OwnerReference`. -/
structure OwnerReference where
  apiVersion : String := ""
  kind : String := ""
  name : String := ""
  uid : String := ""
  deriving DecidableEq, Repr

/-- `metav1.ObjectMeta`, restricted to the fields the core reads or
writes; the creation timestamp is an integer clock value. -/
structure ObjectMeta where
  name : String := ""
  namespc : String := ""
  uid : String := ""
  generation : Int := 0
  labels : LabelMap := []
  annotations : LabelMap := []
  ownerReferences : List OwnerReference := []
  creationTimestamp : Int := 0
  deriving DecidableEq, Repr

/-- Modelled from the spec: one custom autoscaler metric; the translator
(`convertCustomMetrics`, declared outside src/) turns it into the
orchestrator-native shape (an opaque id here) and may fail. -/
structure AutoscalerMetric where
  translatable : Bool := true
  native : Nat := 0
  deriving DecidableEq, Repr

/-- `zv1.Autoscaler` spec. -/
structure AutoscalerSpec where
  minReplicas : Option Int := none
  maxReplicas : Int := 0
  metrics : List AutoscalerMetric := []
  deriving DecidableEq, Repr

/-- `zv1.HorizontalPodAutoscaler` spec (raw passthrough); metrics are
already orchestrator-native, kept as opaque ids. -/
structure HPASpec where
  minReplicas : Option Int := none
  maxReplicas : Int := 0
  metrics : List Nat := []
  deriving DecidableEq, Repr

/-- `zv1.StackServiceSpec`. -/
structure StackServiceSpec where
  ports : List ServicePort := []
  deriving DecidableEq, Repr

/-- `zv1.StackSpec`. -/
structure StackSpec where
  replicas : Option Int := none
  horizontalPodAutoscaler : Option HPASpec := none
  service : Option StackServiceSpec := none
  podTemplate : PodTemplateSpec := {}
  autoscaler : Option AutoscalerSpec := none
  deriving DecidableEq, Repr

/-- `zv1.StackSpecTemplate`: a StackSpec plus the template version. -/
structure StackSpecTemplate where
  stackSpec : StackSpec := {}
  version : String := ""
  deriving DecidableEq, Repr

/-- `zv1.StackTemplate`: object meta (only its annotations are read)
plus the templated spec. -/
structure StackTemplate where
  annotations : LabelMap := []
  spec : StackSpecTemplate := {}
  deriving DecidableEq, Repr

/-- `zv1.StackLifecycle`: optional numbers stay optional (unset is not
zero). -/
structure StackLifecycle where
  scaledownTTLSeconds : Option Int := none
  limit : Option Int := none
  deriving DecidableEq, Repr

/-- `zv1.StackSetIngressSpec`. -/
structure StackSetIngressSpec where
  annotations : LabelMap := []
  path : String := ""
  hosts : List String := []
  backendPort : IntOrString := IntOrString.int 0
  deriving DecidableEq, Repr

/-- `zv1.StackSetSpec`. -/
structure StackSetSpec where
  ingress : Option StackSetIngressSpec := none
  stackLifecycle : StackLifecycle := {}
  stackTemplate : StackTemplate := {}
  deriving DecidableEq, Repr

/-- `zv1.StackSetStatus` (the aggregate counts are written only by the
status generator, which no claim is about; only `observedStackVersion`
is read by the functions under proof). -/
structure StackSetStatus where
  observedStackVersion : String := ""
  deriving DecidableEq, Repr

/-- `zv1.StackSet`. -/
structure StackSet where
  apiVersion : String := ""
  kind : String := ""
  meta : ObjectMeta := {}
  spec : StackSetSpec := {}
  status : StackSetStatus := {}
  deriving DecidableEq, Repr

/-- `zv1.Stack` (status is not read by the functions under proof). -/
structure Stack where
  meta : ObjectMeta := {}
  spec : StackSpec := {}
  deriving DecidableEq, Repr

/-- `core.StackContainer`: a Stack plus observed downstream facts.  The
scaledown TTL and the current clock instant are injected observations
(the spec keeps the clock an injected collaborator). -/
structure StackContainer where
  stack : Stack := {}
  pendingRemoval : Bool := false
  ingressSpec : Option StackSetIngressSpec := none
  deploymentReplicas : Int := 0
  createdReplicas : Int := 0
  readyReplicas : Int := 0
  updatedReplicas : Int := 0
  desiredReplicas : Int := 0
  stackReplicas : Int := 0
  actualTrafficWeight : Rat := 0
  desiredTrafficWeight : Rat := 0
  noTrafficSince : Option Int := none
  prescalingActive : Bool := false
  prescalingReplicas : Int := 0
  prescalingDesiredTrafficWeight : Rat := 0
  stacksetName : String := ""
  scaledownTTLSeconds : Int := 300
  now : Int := 0
  deriving DecidableEq, Repr

/-- `core.StackSetContainer`: the working set (Go keeps the containers
in a map keyed by UID; the iteration order is immaterial to every
function under proof, so a list is used). -/
structure StackSetContainer where
  stackSet : StackSet := {}
  stackContainers : List StackContainer := []
  deriving DecidableEq, Repr

def StacksetHeritageLabelKey : String := "stackset"

def StackVersionLabelKey : String := "stack-version"

/-- Modelled from the spec: `stackTemplate.version` defaults to "01". -/
def defaultVersion : String := "01"

/-- Modelled from the spec: `stackLifecycle.limit` defaults to 10. -/
def defaultStackLifecycleLimit : Int := 10

/-- Modelled from the spec: the stack-generation annotation key. -/
def stackGenerationAnnotationKey : String :=
  "stackset-controller.zalando.org/stack-generation"

/-- Modelled from the spec: the actual-weight annotation key. -/
def backendWeightsAnnotationKey : String := "zalando.org/backend-weights"

/-- Modelled from the spec: the desired-weight annotation key. -/
def stackTrafficWeightsAnnotationKey : String :=
  "zalando.org/stack-traffic-weights"

/-- Modelled from the spec: API group/version and kind of a Stack, used
in owner references of per-Stack resources. -/
def APIVersionStacks : String := "zalando.org/v1"

/-- Modelled from the spec: kind of a Stack. -/
def KindStack : String := "Stack"

def protocolTCP : String := "TCP"

def errNoPaths : String := "invalid ingress, no paths defined"

def errCustomMetric : String := "custom-metric-translation"

def StackContainer.Name (sc : StackContainer) : String := sc.stack.meta.name

def StackContainer.Namespc (sc : StackContainer) : String :=
  sc.stack.meta.namespc

/-- Modelled from the spec: `HasTraffic` is
`actualTrafficWeight > 0 OR desiredTrafficWeight > 0` (declared outside
src/). -/
def StackContainer.HasTraffic (sc : StackContainer) : Bool :=
  decide (0 < sc.actualTrafficWeight) || decide (0 < sc.desiredTrafficWeight)

/-- Modelled from the spec: `IsAutoscaled` holds when the Stack spec has
either an `autoscaler` or a `horizontalPodAutoscaler` (declared outside
src/). -/
def StackContainer.IsAutoscaled (sc : StackContainer) : Bool :=
  sc.stack.spec.autoscaler.isSome || sc.stack.spec.horizontalPodAutoscaler.isSome

/-- Modelled from the spec: `ScaledDown` is `!HasTraffic` AND
`noTrafficSince != nil` AND `now - noTrafficSince >= scaledownTTLSeconds`
(declared outside src/). -/
def StackContainer.ScaledDown (sc : StackContainer) : Bool :=
  !sc.HasTraffic &&
    match sc.noTrafficSince with
    | none => false
    | some t => decide (sc.scaledownTTLSeconds ≤ sc.now - t)

/-- Modelled from the spec: `wrapReplicas` boxes a replica count into the
optional (pointer-valued) replica field (declared outside src/). -/
def wrapReplicas (replicas : Int) : Option Int := some replicas

/-- `currentStackVersion` from pkg/core/stackset.go. -/
def currentStackVersion (stackset : StackSet) : String :=
  let version := stackset.spec.stackTemplate.spec.version
  if version = "" then defaultVersion else version

/-- `generateStackName` from pkg/core/stackset.go. -/
def generateStackName (stackset : StackSet) (version : String) : String :=
  stackset.meta.name ++ "-" ++ version

/-- `sanitizeServicePorts` from pkg/core/stackset.go: default every
port protocol that is unset to TCP.  The Go function writes through the
pointer it is given; callers that pass a shared object see the update
(modelled by returning the updated spec). -/
def sanitizeServicePorts (service : StackServiceSpec) : StackServiceSpec :=
  { service with
    ports := service.ports.map (fun port =>
      if port.protocol = "" then { port with protocol := protocolTCP } else port) }

/-- `stackByName` on the working set (declared outside src/ but fully
determined by its callers: find the container whose Stack has the given
name). -/
def StackSetContainer.stackByName (ssc : StackSetContainer) (name : String) :
    Option StackContainer :=
  ssc.stackContainers.find? (fun sc => sc.Name = name)

/-- `NewStack` from pkg/core/stackset.go.  The second component is the
StackSet after the call: the source calls `sanitizeServicePorts` on the
template service *without* a deep copy, so the template of the input
StackSet is updated in place whenever a new stack is emitted. -/
def StackSetContainer.NewStack (ssc : StackSetContainer) :
    Option (StackContainer × String) × StackSet :=
  let stackset := ssc.stackSet
  let observedStackVersion := stackset.status.observedStackVersion
  let stackVersion := currentStackVersion stackset
  let stackName := generateStackName stackset stackVersion
  let stack := ssc.stackByName stackName
  if stack = none ∧ observedStackVersion ≠ stackVersion then
    let service := stackset.spec.stackTemplate.spec.stackSpec.service.map
      sanitizeServicePorts
    (some
      ({ stack :=
          { meta :=
              { name := stackName
                namespc := ssc.stackSet.meta.namespc
                ownerReferences :=
                  [{ apiVersion := stackset.apiVersion
                     kind := stackset.kind
                     name := stackset.meta.name
                     uid := stackset.meta.uid }]
                labels := mergeLabels
                  [[(StacksetHeritageLabelKey, stackset.meta.name)],
                    stackset.meta.labels,
                    [(StackVersionLabelKey, stackVersion)]]
                annotations := stackset.spec.stackTemplate.annotations }
            spec :=
              { replicas := stackset.spec.stackTemplate.spec.stackSpec.replicas
                horizontalPodAutoscaler :=
                  stackset.spec.stackTemplate.spec.stackSpec.horizontalPodAutoscaler
                service := service
                podTemplate := stackset.spec.stackTemplate.spec.stackSpec.podTemplate
                autoscaler := stackset.spec.stackTemplate.spec.stackSpec.autoscaler } } },
        stackVersion),
      { stackset with spec.stackTemplate.spec.stackSpec.service := service })
  else
    (none, stackset)

/-- The gc-candidate test inside `MarkExpiredStacks`: no ingress, or
scaled down because of inactivity. -/
def isGCCandidate (sc : StackContainer) : Bool :=
  sc.ingressSpec.isNone || sc.ScaledDown

/-- Marking of the excess candidates: set `PendingRemoval` on the
containers at the given positions (the Go code mutates the pointed-to
containers; list positions stand for pointer identity). -/
def markList (scs : List StackContainer) (idxs : List Nat) : List StackContainer :=
  scs.enum.map (fun p =>
    if p.1 ∈ idxs then { p.2 with pendingRemoval := true } else p.2)

/-- The history limit read by `MarkExpiredStacks`:
`stackLifecycle.limit` when set, the default of 10 otherwise. -/
def StackSetContainer.historyLimit (ssc : StackSetContainer) : Int :=
  match ssc.stackSet.spec.stackLifecycle.limit with
  | none => defaultStackLifecycleLimit
  | some l => l

/-- The gc-candidate list of `MarkExpiredStacks`, paired with the list
positions standing for pointer identity. -/
def gcCandidatesOf (ssc : StackSetContainer) : List (Nat × StackContainer) :=
  ssc.stackContainers.enum.filter (fun p => isGCCandidate p.2)

/-- The by-oldest comparison of `MarkExpiredStacks`: ascending Stack
creation timestamp. -/
def candidateLe (a b : Nat × StackContainer) : Bool :=
  decide (a.2.stack.meta.creationTimestamp ≤ b.2.stack.meta.creationTimestamp)

/-- The positions `MarkExpiredStacks` marks: the first
`len(candidates) - historyLimit` candidates after sorting by oldest. -/
def markedIdxs (ssc : StackSetContainer) : List Nat :=
  (((gcCandidatesOf ssc).mergeSort candidateLe).take
    (((gcCandidatesOf ssc).length : Int) - ssc.historyLimit).toNat).map Prod.fst

/-- `MarkExpiredStacks` from pkg/core/stackset.go: collect the
candidates (no ingress, or scaled down), return unchanged if the history
limit is not exceeded, otherwise sort candidates ascending by creation
timestamp and mark the oldest excess ones as pending removal. -/
def StackSetContainer.MarkExpiredStacks (ssc : StackSetContainer) :
    StackSetContainer :=
  if ((gcCandidatesOf ssc).length : Int) ≤ ssc.historyLimit then ssc
  else
    { ssc with
      stackContainers := markList ssc.stackContainers (markedIdxs ssc) }

/-- The `selectorLabels` set from the generators file: only the
stackset-heritage and stack-version keys enter selectors. -/
def selectorLabels : List String := [StacksetHeritageLabelKey, StackVersionLabelKey]

/-- `limitLabels` from the generators file: keep only the labels whose
key is in the valid set. -/
def limitLabels (labels : LabelMap) (validKeys : List String) : LabelMap :=
  labels.filter (fun p => validKeys.contains p.1)

/-- The label loop of `templateInjectLabels`: add each label whose key
the base map does not already bind. -/
def injectLabels (base : LabelMap) (labels : LabelMap) : LabelMap :=
  labels.foldl
    (fun acc p => if (lookupLabel acc p.1).isSome then acc else acc ++ [p]) base

/-- `templateInjectLabels` from the generators file: add each label whose
key the template does not already set; explicitly set labels are never
overwritten. -/
def templateInjectLabels (template : PodTemplateSpec) (labels : LabelMap) :
    PodTemplateSpec :=
  { template with labels := injectLabels template.labels labels }

/-- `resourceMeta` from the generators file: identity metadata of every
per-Stack downstream resource. -/
def StackContainer.resourceMeta (sc : StackContainer) : ObjectMeta :=
  { name := sc.Name
    namespc := sc.Namespc
    annotations := [(stackGenerationAnnotationKey, toString sc.stack.meta.generation)]
    labels := mapCopy sc.stack.meta.labels
    ownerReferences :=
      [{ apiVersion := APIVersionStacks
         kind := KindStack
         name := sc.Name
         uid := sc.stack.meta.uid }] }

/-- `servicePortsFromContainers` from the generators file: one service
port per container port, named `port-<containerIdx>-<portIdx>` unless the
container port is named, protocol defaulted to TCP, target port equal to
the container port. -/
def servicePortsFromContainers (containers : List Container) : List ServicePort :=
  (containers.enum.map (fun ic =>
    ic.2.ports.enum.map (fun jp =>
      let name := if jp.2.name = "" then
          "port-" ++ toString ic.1 ++ "-" ++ toString jp.1
        else jp.2.name
      let protocol := if jp.2.protocol = "" then protocolTCP else jp.2.protocol
      { name := name
        protocol := protocol
        port := jp.2.containerPort
        targetPort := IntOrString.int jp.2.containerPort : ServicePort }))).flatten

/-- The port-matching test inside `getServicePorts`: an integer backend
port matches on the port number, a string one on the port name. -/
def matchesBackendPort (backendPort : IntOrString) (port : ServicePort) : Bool :=
  match backendPort with
  | IntOrString.int v => decide (port.port = v)
  | IntOrString.str s => decide (port.name = s)

/-- The port-mismatch error of `getServicePorts`. -/
def errPortMismatch (backendPort : IntOrString) : String :=
  "no service ports matching backendPort " ++
    (match backendPort with
     | IntOrString.int v => toString v
     | IntOrString.str s => s)

/-- The port-selection step of `getServicePorts`: the service block's
ports, or the synthesized container ports when the service block is nil
or lists no ports. -/
def stackServicePorts (stackSpec : StackSpec) : List ServicePort :=
  match stackSpec.service with
  | none => servicePortsFromContainers stackSpec.podTemplate.containers
  | some svc =>
    if svc.ports.isEmpty then
      servicePortsFromContainers stackSpec.podTemplate.containers
    else svc.ports

/-- `getServicePorts` from the generators file: take the service ports of
the stack spec, or synthesize them from the container ports when the
service block is nil or lists no ports; when a backend port is given,
require at least one matching port. -/
def getServicePorts (stackSpec : StackSpec) (backendPort : Option IntOrString) :
    Except String (List ServicePort) :=
  let servicePorts := stackServicePorts stackSpec
  match backendPort with
  | none => Except.ok servicePorts
  | some bp =>
    if servicePorts.any (matchesBackendPort bp) then Except.ok servicePorts
    else Except.error (errPortMismatch bp)

/-- `appsv1.Deployment`, restricted to the fields the generator writes. -/
structure Deployment where
  meta : ObjectMeta := {}
  replicas : Option Int := none
  selectorMatchLabels : LabelMap := []
  template : PodTemplateSpec := {}
  deriving DecidableEq, Repr

/-- `GenerateDeployment` from the generators file.  The pod template is
deep-copied before labels are injected, so the input stack is left
untouched. -/
def StackContainer.GenerateDeployment (sc : StackContainer) : Deployment :=
  let stack := sc.stack
  let desiredReplicas :=
    if sc.prescalingActive then sc.prescalingReplicas else sc.stackReplicas
  let updatedReplicas : Option Int :=
    if desiredReplicas ≠ 0 ∧ sc.ScaledDown = false then
      if sc.deploymentReplicas = 0 ∨
          (sc.IsAutoscaled = false ∧ desiredReplicas ≠ sc.deploymentReplicas) then
        wrapReplicas desiredReplicas
      else none
    else
      if sc.deploymentReplicas ≠ 0 then wrapReplicas 0 else none
  { meta := sc.resourceMeta
    replicas := updatedReplicas
    selectorMatchLabels := limitLabels stack.meta.labels selectorLabels
    template := templateInjectLabels stack.spec.podTemplate stack.meta.labels }

/-- Modelled from the spec: `convertCustomMetrics` translates each custom
autoscaler metric to the orchestrator-native shape and may emit extra
annotations; it fails when a metric cannot be translated. -/
def convertCustomMetrics (stacksetName stackName : String)
    (metrics : List AutoscalerMetric) : Except String (List Nat × LabelMap) :=
  if metrics.all (fun m => m.translatable) then
    Except.ok (metrics.map (fun m => m.native), [])
  else Except.error errCustomMetric

/-- `autoscaling.HorizontalPodAutoscaler`, restricted to the fields the
generator writes. -/
structure HPA where
  meta : ObjectMeta := {}
  minReplicas : Option Int := none
  maxReplicas : Int := 0
  metrics : List Nat := []
  scaleTargetName : String := ""
  deriving DecidableEq, Repr

/-- `GenerateHPA` from the generators file: nothing when the stack has
neither autoscaler nor HPA spec; otherwise the autoscaler spec (with
custom-metric translation) or the raw HPA spec, with `minReplicas`
raised to `prescalingReplicas` while prescaling is active and the
configured value is unset or lower. -/
def StackContainer.GenerateHPA (sc : StackContainer) : Except String (Option HPA) :=
  let autoscalerSpec := sc.stack.spec.autoscaler
  let hpaSpec := sc.stack.spec.horizontalPodAutoscaler
  if autoscalerSpec = none ∧ hpaSpec = none then Except.ok none
  else
    let base : HPA :=
      { meta := sc.resourceMeta, scaleTargetName := sc.Name }
    let belowPrescaling : Option Int → Bool := fun m =>
      match m with
      | none => true
      | some v => decide (v < sc.prescalingReplicas)
    let clamp : HPA → HPA := fun result =>
      if sc.prescalingActive && belowPrescaling result.minReplicas then
        { result with minReplicas := some sc.prescalingReplicas }
      else result
    match autoscalerSpec with
    | some a =>
      match convertCustomMetrics sc.stacksetName sc.Name a.metrics with
      | Except.error e => Except.error e
      | Except.ok ma =>
        Except.ok (some (clamp
          { base with
            minReplicas := a.minReplicas
            maxReplicas := a.maxReplicas
            metrics := ma.1
            meta := { base.meta with
              annotations := mergeLabels [base.meta.annotations, ma.2] } }))
    | none =>
      match hpaSpec with
      | some h =>
        Except.ok (some (clamp
          { base with
            minReplicas := h.minReplicas
            maxReplicas := h.maxReplicas
            metrics := h.metrics }))
      | none => Except.ok none

/-- `v1.Service`, restricted to the fields the generator writes. -/
structure Service where
  meta : ObjectMeta := {}
  selector : LabelMap := []
  ports : List ServicePort := []
  deriving DecidableEq, Repr

/-- `GenerateService` from the generators file. -/
def StackContainer.GenerateService (sc : StackContainer) : Except String Service :=
  let backendPort : Option IntOrString := sc.ingressSpec.map (fun i => i.backendPort)
  match getServicePorts sc.stack.spec backendPort with
  | Except.error e => Except.error e
  | Except.ok servicePorts =>
    Except.ok
      { meta := sc.resourceMeta
        selector := limitLabels sc.stack.meta.labels selectorLabels
        ports := servicePorts }

/-- `extensions.HTTPIngressPath`. -/
structure HTTPIngressPath where
  path : String := ""
  serviceName : String := ""
  servicePort : IntOrString := IntOrString.int 0
  deriving DecidableEq, Repr

/-- `extensions.IngressRule`. -/
structure IngressRule where
  host : String := ""
  paths : List HTTPIngressPath := []
  deriving DecidableEq, Repr

/-- A serialized traffic-weight map (the parsed content of a weight
annotation; JSON marshalling of a finite string-to-number map is
injective, so the map itself is kept). -/
abbrev WeightMap := List (String × Rat)

/-- First-match lookup on a weight map, the read of a Go map. -/
def lookupWeight (m : WeightMap) (k : String) : Option Rat :=
  match m with
  | [] => none
  | p :: t => if p.1 = k then some p.2 else lookupWeight t k

/-- Go map write `m[k] = v` on a weight map. -/
def setWeight (m : WeightMap) (k : String) (v : Rat) : WeightMap :=
  if (lookupWeight m k).isSome then
    m.map (fun p => if p.1 = k then (k, v) else p)
  else
    m ++ [(k, v)]

/-- `extensions.Ingress`, restricted to the fields the generators write;
the two weight annotations are carried in parsed form. -/
structure Ingress where
  meta : ObjectMeta := {}
  rules : List IngressRule := []
  backendWeights : WeightMap := []
  trafficWeights : WeightMap := []
  deriving DecidableEq, Repr

/-- Modelled from the spec: `createSubdomain` (declared outside src/)
rewrites a per-Stack host as `<stackName>.<originalHost>`. -/
def createSubdomain (host stackName : String) : Except String String :=
  Except.ok (stackName ++ "." ++ host)

/-- `GenerateIngress` on a StackContainer from the generators file: the
per-Stack ingress, one rule per rewritten host, backend the per-Stack
service; nothing when the stack has no ingress spec. -/
def StackContainer.GenerateIngress (sc : StackContainer) :
    Except String (Option Ingress) :=
  match sc.ingressSpec with
  | none => Except.ok none
  | some ingressSpec =>
    let path : HTTPIngressPath :=
      { path := ingressSpec.path
        serviceName := sc.Name
        servicePort := ingressSpec.backendPort }
    match ingressSpec.hosts.mapM (fun host =>
        (createSubdomain host sc.Name).map (fun newHost =>
          { host := newHost, paths := [path] : IngressRule })) with
    | Except.error e => Except.error e
    | Except.ok rules =>
      Except.ok (some
        { meta :=
            { sc.resourceMeta with
              annotations := mergeLabels
                [sc.resourceMeta.annotations, ingressSpec.annotations] }
          rules := rules })

/-- The actual- or desired-weight map built inside the shared-ingress
generator: one entry per container whose weight under `f` is positive. -/
def buildWeights (f : StackContainer → Rat) (scs : List StackContainer) : WeightMap :=
  scs.foldl (fun m sc => if 0 < f sc then setWeight m sc.Name (f sc) else m) []

/-- `GenerateIngress` on the StackSetContainer from
pkg/core/stackset.go: the shared ingress.  Nothing when the StackSet has
no ingress spec; the no-paths error when no stack serves positive actual
weight; otherwise one path per positively weighted stack, sorted by
backend service name, replicated under every host, with both weight maps
attached as annotations. -/
def StackSetContainer.GenerateIngress (ssc : StackSetContainer) :
    Except String (Option Ingress) :=
  match ssc.stackSet.spec.ingress with
  | none => Except.ok none
  | some ingressSpec =>
    let stackset := ssc.stackSet
    let labels := mergeLabels
      [[(StacksetHeritageLabelKey, stackset.meta.name)], stackset.meta.labels]
    let actualWeights := buildWeights
      (fun sc => sc.actualTrafficWeight) ssc.stackContainers
    let desiredWeights := buildWeights
      (fun sc => sc.desiredTrafficWeight) ssc.stackContainers
    let paths := (ssc.stackContainers.filter
        (fun sc => decide (0 < sc.actualTrafficWeight))).map
      (fun sc =>
        { path := ingressSpec.path
          serviceName := sc.Name
          servicePort := ingressSpec.backendPort : HTTPIngressPath })
    if paths.isEmpty then Except.error errNoPaths
    else
      let sortedPaths := paths.mergeSort
        (fun a b => decide (a.serviceName ≤ b.serviceName))
      let rules := ingressSpec.hosts.map
        (fun host => { host := host, paths := sortedPaths : IngressRule })
      Except.ok (some
        { meta :=
            { name := stackset.meta.name
              namespc := stackset.meta.namespc
              labels := labels
              annotations := mergeLabels [ingressSpec.annotations]
              ownerReferences :=
                [{ apiVersion := stackset.apiVersion
                   kind := stackset.kind
                   name := stackset.meta.name
                   uid := stackset.meta.uid }] }
          rules := rules
          backendWeights := actualWeights
          trafficWeights := desiredWeights })

/-- Modelled from the spec: the deployment-replicas decision table of
section 4.3, written exactly as its bullet points read (`desired` is the
prescaling replica count while prescaling is active, the stack replica
count otherwise). -/
def specReplicasDecision (sc : StackContainer) : Option Int :=
  let desired :=
    if sc.prescalingActive then sc.prescalingReplicas else sc.stackReplicas
  if desired ≠ 0 ∧ sc.ScaledDown = false then
    if sc.deploymentReplicas = 0 then some desired
    else if sc.IsAutoscaled = false ∧ desired ≠ sc.deploymentReplicas then
      some desired
    else none
  else
    if sc.deploymentReplicas ≠ 0 then some 0 else none

/-- The `minReplicas` configured on whichever autoscaling spec
`GenerateHPA` reads: the autoscaler spec when present, otherwise the raw
HPA spec. -/
def configuredMinReplicas (sc : StackContainer) : Option Int :=
  match sc.stack.spec.autoscaler with
  | some a => a.minReplicas
  | none =>
    match sc.stack.spec.horizontalPodAutoscaler with
    | some h => h.minReplicas
    | none => none

/-- A concrete working set: StackSet `foo` in namespace `bar`, template
version `v1` with one service port lacking a protocol, nothing observed
yet and no existing stacks. -/
def exFooSet : StackSet :=
  { apiVersion := "zalando.org/v1"
    kind := "StackSet"
    meta := { name := "foo", namespc := "bar", uid := "123" }
    spec :=
      { stackTemplate :=
          { spec :=
              { version := "v1"
                stackSpec :=
                  { replicas := some 3
                    service := some { ports := [{ name := "http", port := 80 }] }
                    podTemplate :=
                      { containers := [{ name := "app", ports := [] }] } } } } }
    status := { observedStackVersion := "" } }

def exFooSSC : StackSetContainer := { stackSet := exFooSet }

/-- A prescaling stack container with an autoscaler spec whose
configured minimum lies below the prescaling target. -/
def exPrescaled : StackContainer :=
  { stack :=
      { spec :=
          { autoscaler := some { minReplicas := some 1, maxReplicas := 7 } } }
    prescalingActive := true
    prescalingReplicas := 5 }

/-- The HPA `GenerateHPA` produces for `exPrescaled`. -/
def exPrescaledHPA : HPA :=
  { meta :=
      { annotations := [(stackGenerationAnnotationKey, "0")]
        ownerReferences :=
          [{ apiVersion := APIVersionStacks, kind := KindStack }] }
    minReplicas := some 5
    maxReplicas := 7 }

/-- A stack container whose pod template explicitly sets the
stack-version label to a value different from the Stack's own label. -/
def exOverride : StackContainer :=
  { stack :=
      { meta :=
          { name := "foo-v1"
            labels := [("stackset", "foo"), ("stack-version", "v1")] }
        spec :=
          { podTemplate := { labels := [("stack-version", "v2")] } } } }

/-- A stack container with an autoscaler spec, a service block listing no
ports, and one container port. -/
def exEmptySvc : StackContainer :=
  { stack :=
      { spec :=
          { autoscaler := some { maxReplicas := 3 }
            service := some { ports := [] }
            podTemplate :=
              { containers := [{ name := "app", ports := [{ containerPort := 8080 }] }] } } } }

/-- Two ingress-less stacks of different ages under a retention limit of
one: the older one must be garbage collected. -/
def exGC : StackSetContainer :=
  { stackSet := { spec := { stackLifecycle := { limit := some 1 } } }
    stackContainers :=
      [{ stack := { meta := { name := "foo-v1", creationTimestamp := 10 } } },
       { stack := { meta := { name := "foo-v2", creationTimestamp := 20 } } }] }

/-- A stack serving traffic behind an ingress. -/
def exServingC : StackContainer :=
  { stack := { meta := { name := "foo-v1" } }
    ingressSpec := some {}
    actualTrafficWeight := 50 }

/-- A working set with one serving stack, below the retention limit. -/
def exServing : StackSetContainer :=
  { stackSet := {}
    stackContainers := [exServingC] }

/-- A shared-ingress working set: two stacks splitting the actual
traffic 75/25 under one host. -/
def exIngSSC : StackSetContainer :=
  { stackSet :=
      { meta := { name := "foo", namespc := "bar" }
        spec := { ingress := some { path := "/", hosts := ["example.org"] } } }
    stackContainers :=
      [{ stack := { meta := { name := "foo-v1" } }
         actualTrafficWeight := 75 },
       { stack := { meta := { name := "foo-v2" } }
         actualTrafficWeight := 25
         desiredTrafficWeight := 100 }] }

/-- The service `GenerateService` produces for `exEmptySvc`: its ports
are synthesized from the container port, not taken from the (empty)
service block. -/
def exEmptySvcOut : Service :=
  { meta := exEmptySvc.resourceMeta
    selector := []
    ports := [{ name := "port-0-0", protocol := "TCP", port := 8080,
                targetPort := IntOrString.int 8080 }] }

/-- C1: NewStack emits a stack exactly when no stack of the current name
exists and the observed version differs from the current template
version; the emitted stack carries that name, the parent namespace, an
owner reference to the StackSet, and a snapshot of the template spec in
which every service port lacking a protocol is defaulted to TCP. -/
theorem newStack_emits_iff (ssc : StackSetContainer) :
    (((ssc.NewStack).1.isSome ↔
        ssc.stackByName
            (generateStackName ssc.stackSet (currentStackVersion ssc.stackSet)) =
            none ∧
          ssc.stackSet.status.observedStackVersion ≠
            currentStackVersion ssc.stackSet)) ∧
    (∀ sc v, (ssc.NewStack).1 = some (sc, v) →
      v = currentStackVersion ssc.stackSet ∧
      sc.stack.meta.name = generateStackName ssc.stackSet v ∧
      sc.stack.meta.namespc = ssc.stackSet.meta.namespc ∧
      sc.stack.meta.ownerReferences =
        [{ apiVersion := ssc.stackSet.apiVersion
           kind := ssc.stackSet.kind
           name := ssc.stackSet.meta.name
           uid := ssc.stackSet.meta.uid }] ∧
      sc.stack.spec.replicas =
        ssc.stackSet.spec.stackTemplate.spec.stackSpec.replicas ∧
      sc.stack.spec.horizontalPodAutoscaler =
        ssc.stackSet.spec.stackTemplate.spec.stackSpec.horizontalPodAutoscaler ∧
      sc.stack.spec.podTemplate =
        ssc.stackSet.spec.stackTemplate.spec.stackSpec.podTemplate ∧
      sc.stack.spec.autoscaler =
        ssc.stackSet.spec.stackTemplate.spec.stackSpec.autoscaler ∧
      (ssc.stackSet.spec.stackTemplate.spec.stackSpec.service = none →
        sc.stack.spec.service = none) ∧
      (∀ tsvc,
        ssc.stackSet.spec.stackTemplate.spec.stackSpec.service = some tsvc →
        sc.stack.spec.service = some
          { tsvc with
            ports := tsvc.ports.map (fun p =>
              if p.protocol = "" then { p with protocol := protocolTCP }
              else p) })) := by
  by_cases h :
      ssc.stackByName
          (generateStackName ssc.stackSet (currentStackVersion ssc.stackSet)) =
          none ∧
        ssc.stackSet.status.observedStackVersion ≠
          currentStackVersion ssc.stackSet
  · simp only [StackSetContainer.NewStack, if_pos h]
    refine ⟨by simpa using h, ?_⟩
    rintro sc v hsome
    injection hsome with hpair
    injection hpair with hsc hv
    subst hv
    subst hsc
    refine ⟨rfl, rfl, rfl, rfl, rfl, rfl, rfl, rfl, ?_, ?_⟩
    · intro hnone
      simp [hnone]
    · intro tsvc hsvc
      simp [hsvc, sanitizeServicePorts]
  · simp only [StackSetContainer.NewStack, if_neg h]
    constructor
    · simpa using h
    · intro sc v hsome
      simp at hsome

/-- Witness for C1 at the concrete working set: the new-stack condition
holds there, so a stack is emitted. -/
theorem newStack_emits_iff_witness : (exFooSSC.NewStack).1.isSome :=
  ((newStack_emits_iff exFooSSC).1).mpr (by decide)

/-- C9 (failing input): the source calls `sanitizeServicePorts` on the
template service without cloning it, so emitting a new stack writes the
TCP default through the shared pointer into the observed StackSet: after
the call the StackSet differs from the input exactly in that port
protocol. -/
theorem newStack_mutates_input_stackset :
    (exFooSSC.NewStack).2 ≠ exFooSSC.stackSet ∧
    (exFooSSC.NewStack).2.spec.stackTemplate.spec.stackSpec.service =
      some { ports := [{ name := "http", protocol := "TCP", port := 80 }] } ∧
    exFooSSC.stackSet.spec.stackTemplate.spec.stackSpec.service =
      some { ports := [{ name := "http", protocol := "", port := 80 }] } := by
  decide

/-- C10: a generator whose spec section is absent returns no object and
no error: the shared-ingress generator without a StackSet ingress spec,
the per-Stack ingress generator without an ingress spec, and the HPA
generator without either autoscaling spec. -/
theorem generators_nothing_when_spec_absent (ssc : StackSetContainer)
    (sc1 sc2 : StackContainer)
    (h1 : ssc.stackSet.spec.ingress = none)
    (h2 : sc1.ingressSpec = none)
    (h3 : sc2.stack.spec.autoscaler = none)
    (h4 : sc2.stack.spec.horizontalPodAutoscaler = none) :
    ssc.GenerateIngress = Except.ok none ∧
    sc1.GenerateIngress = Except.ok none ∧
    sc2.GenerateHPA = Except.ok none := by
  refine ⟨?_, ?_, ?_⟩
  · simp [StackSetContainer.GenerateIngress, h1]
  · simp [StackContainer.GenerateIngress, h2]
  · simp [StackContainer.GenerateHPA, h3, h4]

/-- Witness for C10 at empty inputs. -/
theorem generators_nothing_when_spec_absent_witness :
    ({} : StackSetContainer).GenerateIngress = Except.ok none ∧
    ({} : StackContainer).GenerateIngress = Except.ok none ∧
    ({} : StackContainer).GenerateHPA = Except.ok none :=
  generators_nothing_when_spec_absent {} {} {} rfl rfl rfl rfl

/-- C4: the replica count GenerateDeployment writes is exactly the one
the spec decision table of section 4.3 prescribes. -/
theorem generateDeployment_replicas_decision (sc : StackContainer) :
    (sc.GenerateDeployment).replicas = specReplicasDecision sc := by
  simp only [StackContainer.GenerateDeployment, specReplicasDecision, wrapReplicas]
  split_ifs <;> simp_all

/-- C6: while prescaling is active the generated HPA floor is at least
the prescaling target: a configured minimum that is unset or lower is
raised to exactly `prescalingReplicas`, and without prescaling the
configured minimum passes through unchanged. -/
theorem generateHPA_prescaling_clamp (sc : StackContainer) (hpa : HPA)
    (h : sc.GenerateHPA = Except.ok (some hpa)) :
    (sc.prescalingActive = true →
      (∃ v, hpa.minReplicas = some v ∧ sc.prescalingReplicas ≤ v) ∧
      ((configuredMinReplicas sc = none ∨
          ∃ w, configuredMinReplicas sc = some w ∧ w < sc.prescalingReplicas) →
        hpa.minReplicas = some sc.prescalingReplicas)) ∧
    (sc.prescalingActive = false →
      hpa.minReplicas = configuredMinReplicas sc) := by
  have hmin : hpa.minReplicas =
      (if sc.prescalingActive &&
          (match configuredMinReplicas sc with
           | none => true
           | some v => decide (v < sc.prescalingReplicas)) then
        some sc.prescalingReplicas
      else configuredMinReplicas sc) := by
    rcases hA : sc.stack.spec.autoscaler with _ | a
    · rcases hH : sc.stack.spec.horizontalPodAutoscaler with _ | hs
      · simp only [StackContainer.GenerateHPA, hA, hH] at h
        simp at h
      · simp only [StackContainer.GenerateHPA, hA, hH] at h
        simp only [configuredMinReplicas, hA, hH]
        simp only [reduceCtorEq, and_false, if_false, Except.ok.injEq,
          Option.some.injEq] at h
        rw [← h]
        rcases hm : hs.minReplicas with _ | w <;>
          cases hact : sc.prescalingActive
        · simp [hm, hact, apply_ite HPA.minReplicas]
        · simp [hm, hact, apply_ite HPA.minReplicas]
        · simp [hm, hact, apply_ite HPA.minReplicas]
        · by_cases hw : w < sc.prescalingReplicas <;>
            simp [hm, hact, hw, apply_ite HPA.minReplicas]
    · simp only [StackContainer.GenerateHPA, hA, convertCustomMetrics] at h
      simp only [configuredMinReplicas, hA]
      by_cases hall : a.metrics.all (fun m => m.translatable)
      · simp only [hall, if_true, reduceCtorEq, false_and, if_false,
          Except.ok.injEq, Option.some.injEq] at h
        rw [← h]
        rcases hm : a.minReplicas with _ | w <;>
          cases hact : sc.prescalingActive
        · simp [hm, hact, apply_ite HPA.minReplicas]
        · simp [hm, hact, apply_ite HPA.minReplicas]
        · simp [hm, hact, apply_ite HPA.minReplicas]
        · by_cases hw : w < sc.prescalingReplicas <;>
            simp [hm, hact, hw, apply_ite HPA.minReplicas]
      · simp only [hall, if_false, reduceCtorEq, false_and,
          Bool.false_eq_true] at h
  constructor
  · intro hact
    rw [hact] at hmin
    simp only [Bool.true_and] at hmin
    rcases hm : configuredMinReplicas sc with _ | w
    · rw [hm] at hmin
      simp at hmin
      exact ⟨⟨sc.prescalingReplicas, hmin, le_refl _⟩, fun _ => hmin⟩
    · rw [hm] at hmin
      by_cases hw : w < sc.prescalingReplicas
      · simp [hw] at hmin
        refine ⟨⟨sc.prescalingReplicas, hmin, le_refl _⟩, fun _ => hmin⟩
      · simp [hw] at hmin
        refine ⟨⟨w, hmin, by omega⟩, ?_⟩
        rintro (hnone | ⟨w2, hw2, hlt⟩)
        · cases hnone
        · injection hw2 with hw2
          omega
  · intro hact
    rw [hact] at hmin
    simpa using hmin

/-- Witness for C6 at `exPrescaled`: the configured minimum 1 is below
the prescaling target 5, so the floor is raised to 5. -/
theorem generateHPA_prescaling_clamp_witness :
    (exPrescaled.prescalingActive = true →
      (∃ v, exPrescaledHPA.minReplicas = some v ∧
        exPrescaled.prescalingReplicas ≤ v) ∧
      ((configuredMinReplicas exPrescaled = none ∨
          ∃ w, configuredMinReplicas exPrescaled = some w ∧
            w < exPrescaled.prescalingReplicas) →
        exPrescaledHPA.minReplicas = some exPrescaled.prescalingReplicas)) ∧
    (exPrescaled.prescalingActive = false →
      exPrescaledHPA.minReplicas = configuredMinReplicas exPrescaled) :=
  generateHPA_prescaling_clamp exPrescaled exPrescaledHPA (by rfl)

/-- Lookup distributes over association-list append. -/
theorem lookupLabel_append (a b : LabelMap) (k : String) :
    lookupLabel (a ++ b) k = (lookupLabel a k).or (lookupLabel b k) := by
  induction a with
  | nil => simp [lookupLabel]
  | cons p t ih =>
    by_cases hp : p.1 = k <;> simp [lookupLabel, hp, ih]

/-- Lookup after `limitLabels`: the original binding for keys in the
valid set, nothing for any other key. -/
theorem lookupLabel_limitLabels (m : LabelMap) (valid : List String) (k : String) :
    lookupLabel (limitLabels m valid) k =
      if k ∈ valid then lookupLabel m k else none := by
  induction m with
  | nil => simp [limitLabels, lookupLabel]
  | cons p t ih =>
    by_cases hv : p.1 ∈ valid <;> by_cases hp : p.1 = k
    · subst hp
      rw [show limitLabels (p :: t) valid = p :: limitLabels t valid from by
        simp [limitLabels, hv]]
      simp [lookupLabel, hv]
    · rw [show limitLabels (p :: t) valid = p :: limitLabels t valid from by
        simp [limitLabels, hv]]
      simp [lookupLabel, hp, ih]
    · subst hp
      rw [show limitLabels (p :: t) valid = limitLabels t valid from by
        simp [limitLabels, hv]]
      rw [ih]
      simp [hv]
    · rw [show limitLabels (p :: t) valid = limitLabels t valid from by
        simp [limitLabels, hv]]
      rw [ih]
      simp [lookupLabel, hp]

/-- Lookup after label injection: the base binding wins, missing keys
fall through to the injected labels. -/
theorem lookupLabel_injectLabels (labels : LabelMap) (base : LabelMap)
    (k : String) :
    lookupLabel (injectLabels base labels) k =
      (lookupLabel base k).or (lookupLabel labels k) := by
  induction labels generalizing base with
  | nil => simp [injectLabels, lookupLabel]
  | cons p t ih =>
    simp only [injectLabels, List.foldl] at ih ⊢
    by_cases hbase : (lookupLabel base p.1).isSome
    · rw [if_pos hbase]
      rw [ih base]
      by_cases hp : p.1 = k
      · subst hp
        rcases hsome : lookupLabel base p.1 with _ | v
        · rw [hsome] at hbase
          simp at hbase
        · simp [hsome, lookupLabel]
      · simp [lookupLabel, hp]
    · rw [if_neg hbase]
      rw [ih (base ++ [p])]
      rw [lookupLabel_append]
      by_cases hp : p.1 = k
      · subst hp
        rcases hsome : lookupLabel base p.1 with _ | v
        · simp [lookupLabel]
        · rw [hsome] at hbase
          simp at hbase
      · simp [lookupLabel, hp]

/-- C8 (amended): the generated deployment selector is exactly the
Stack's labels restricted to the stackset and stack-version keys, and
the generated pod template inherits the Stack's labels without
overwriting labels the template explicitly sets; consequently the
selector labels are a subset of the template labels whenever the pod
template does not itself bind a selector key to a value different from
the Stack's. -/
theorem generateDeployment_selector_and_template (sc : StackContainer)
    (hcompat : ∀ k, k ∈ selectorLabels →
      lookupLabel sc.stack.spec.podTemplate.labels k = none ∨
      lookupLabel sc.stack.spec.podTemplate.labels k =
        lookupLabel sc.stack.meta.labels k) :
    (∀ k, lookupLabel (sc.GenerateDeployment).selectorMatchLabels k =
      if k = StacksetHeritageLabelKey ∨ k = StackVersionLabelKey then
        lookupLabel sc.stack.meta.labels k
      else none) ∧
    (∀ k, lookupLabel (sc.GenerateDeployment).template.labels k =
      (lookupLabel sc.stack.spec.podTemplate.labels k).or
        (lookupLabel sc.stack.meta.labels k)) ∧
    (∀ k v,
      lookupLabel (sc.GenerateDeployment).selectorMatchLabels k = some v →
      lookupLabel (sc.GenerateDeployment).template.labels k = some v) := by
  have hsel : (sc.GenerateDeployment).selectorMatchLabels =
      limitLabels sc.stack.meta.labels selectorLabels := by
    simp [StackContainer.GenerateDeployment]
  have htmpl : (sc.GenerateDeployment).template.labels =
      injectLabels sc.stack.spec.podTemplate.labels sc.stack.meta.labels := by
    simp [StackContainer.GenerateDeployment, templateInjectLabels]
  refine ⟨?_, ?_, ?_⟩
  · intro k
    rw [hsel, lookupLabel_limitLabels]
    simp [selectorLabels]
  · intro k
    rw [htmpl, lookupLabel_injectLabels]
  · intro k v hkv
    rw [hsel, lookupLabel_limitLabels] at hkv
    by_cases hk : k ∈ selectorLabels
    · rw [if_pos hk] at hkv
      rcases hcompat k hk with hnone | heq
      · rw [htmpl, lookupLabel_injectLabels, hnone, hkv]
        rfl
      · rw [htmpl, lookupLabel_injectLabels, heq, hkv]
        rfl
    · rw [if_neg hk] at hkv
      cases hkv

/-- Witness for the amended C8 at the default container (whose pod
template binds no labels, so the compatibility hypothesis holds). -/
theorem generateDeployment_selector_and_template_witness :
    (∀ k,
      lookupLabel (({} : StackContainer).GenerateDeployment).selectorMatchLabels
          k =
        if k = StacksetHeritageLabelKey ∨ k = StackVersionLabelKey then
          lookupLabel ({} : StackContainer).stack.meta.labels k
        else none) ∧
    (∀ k,
      lookupLabel (({} : StackContainer).GenerateDeployment).template.labels k =
        (lookupLabel ({} : StackContainer).stack.spec.podTemplate.labels
            k).or
          (lookupLabel ({} : StackContainer).stack.meta.labels k)) ∧
    (∀ k v,
      lookupLabel (({} : StackContainer).GenerateDeployment).selectorMatchLabels
          k = some v →
      lookupLabel (({} : StackContainer).GenerateDeployment).template.labels k =
        some v) :=
  generateDeployment_selector_and_template {} (fun _ _ => Or.inl rfl)

/-- C8 (counterexample): when the pod template explicitly sets the
stack-version label to a different value than the Stack, the selector
binds `stack-version` to the Stack's value while the generated template
keeps its own, so the selector is not a subset of the template labels. -/
theorem generateDeployment_selector_not_subset :
    lookupLabel (exOverride.GenerateDeployment).selectorMatchLabels
        "stack-version" = some "v1" ∧
    lookupLabel (exOverride.GenerateDeployment).template.labels
        "stack-version" = some "v2" ∧
    ¬ (∀ k v,
        lookupLabel (exOverride.GenerateDeployment).selectorMatchLabels k =
            some v →
        lookupLabel (exOverride.GenerateDeployment).template.labels k =
            some v) := by
  refine ⟨by decide, by decide, fun hall => ?_⟩
  exact absurd (hall "stack-version" "v1" (by decide)) (by decide)

/-- The ports of a successfully generated service are exactly the
selected stack service ports. -/
theorem generateService_ports_eq (sc : StackContainer) (s : Service)
    (hs : sc.GenerateService = Except.ok s) :
    s.ports = stackServicePorts sc.stack.spec := by
  rcases hbp : sc.ingressSpec with _ | isp
  · simp only [StackContainer.GenerateService, getServicePorts, hbp,
      Option.map_none', Except.ok.injEq] at hs
    rw [← hs]
  · simp only [StackContainer.GenerateService, getServicePorts, hbp,
      Option.map_some'] at hs
    by_cases hany :
        (stackServicePorts sc.stack.spec).any (matchesBackendPort isp.backendPort)
    · rw [if_pos hany] at hs
      simp only [Except.ok.injEq] at hs
      rw [← hs]
    · rw [if_neg hany] at hs
      cases hs

/-- C5 (amended): with at least one autoscaling spec present, the
service ports come from the service block when it lists ports, and are
synthesized from the container ports when the block is absent or lists
no ports (one port per container port, named
`port-<containerIdx>-<portIdx>` unless the container port is named,
protocol defaulted to TCP, target port the container port); when an
ingress backend port is present, generation succeeds exactly when some
selected port matches it by integer port or by name, and fails with the
port-mismatch error otherwise. -/
theorem generateService_ports_spec (sc : StackContainer)
    (hauto : sc.stack.spec.autoscaler.isSome = true ∨
      sc.stack.spec.horizontalPodAutoscaler.isSome = true) :
    (∀ tsvc, sc.stack.spec.service = some tsvc → tsvc.ports ≠ [] →
      ∀ s, sc.GenerateService = Except.ok s → s.ports = tsvc.ports) ∧
    ((sc.stack.spec.service = none ∨
        (∃ tsvc, sc.stack.spec.service = some tsvc ∧ tsvc.ports = [])) →
      ∀ s, sc.GenerateService = Except.ok s →
        s.ports =
          servicePortsFromContainers sc.stack.spec.podTemplate.containers) ∧
    (∀ (cs : List Container) (i j : Nat) (c : Container) (p : ContainerPort),
      cs[i]? = some c → c.ports[j]? = some p →
      ({ name := if p.name = "" then
            "port-" ++ toString i ++ "-" ++ toString j
          else p.name
         protocol := if p.protocol = "" then protocolTCP else p.protocol
         port := p.containerPort
         targetPort := IntOrString.int p.containerPort } : ServicePort) ∈
        servicePortsFromContainers cs) ∧
    (∀ cs : List Container, (servicePortsFromContainers cs).length =
      (cs.map (fun c => c.ports.length)).sum) ∧
    (∀ isp, sc.ingressSpec = some isp →
      (((∃ s, sc.GenerateService = Except.ok s) ↔
          ∃ q ∈ stackServicePorts sc.stack.spec,
            (∃ v, isp.backendPort = IntOrString.int v ∧ q.port = v) ∨
            (∃ nm, isp.backendPort = IntOrString.str nm ∧ q.name = nm)) ∧
        (¬ (∃ q ∈ stackServicePorts sc.stack.spec,
              (∃ v, isp.backendPort = IntOrString.int v ∧ q.port = v) ∨
              (∃ nm, isp.backendPort = IntOrString.str nm ∧ q.name = nm)) →
          sc.GenerateService = Except.error (errPortMismatch isp.backendPort)))) := by
  have hmatch : ∀ (bp : IntOrString) (q : ServicePort),
      matchesBackendPort bp q = true ↔
        ((∃ v, bp = IntOrString.int v ∧ q.port = v) ∨
         (∃ nm, bp = IntOrString.str nm ∧ q.name = nm)) := by
    intro bp q
    cases bp <;> simp [matchesBackendPort]
  refine ⟨?_, ?_, ?_, ?_, ?_⟩
  · intro tsvc hsvc hne s hs
    rw [generateService_ports_eq sc s hs]
    simp [stackServicePorts, hsvc, hne]
  · rintro (hnone | ⟨tsvc, hsvc, hempty⟩) s hs
    · rw [generateService_ports_eq sc s hs]
      simp [stackServicePorts, hnone]
    · rw [generateService_ports_eq sc s hs]
      simp [stackServicePorts, hsvc, hempty]
  · intro cs i j c p hic hjp
    simp only [servicePortsFromContainers, List.mem_flatten, List.mem_map]
    refine ⟨_, ⟨(i, c), ?_, rfl⟩, ?_⟩
    · exact List.mk_mem_enum_iff_getElem?.mpr hic
    · exact List.mem_map.mpr ⟨(j, p), List.mk_mem_enum_iff_getElem?.mpr hjp, rfl⟩
  · intro cs
    have hsnd : cs.enum.map Prod.snd = cs := by
      simpa [List.enum] using List.enumFrom_map_snd 0 cs
    simp only [servicePortsFromContainers, List.length_flatten, List.map_map]
    rw [show ((fun l => List.length l) ∘ fun ic : Nat × Container =>
        ic.2.ports.enum.map (fun jp =>
          ({ name := if jp.2.name = "" then
                "port-" ++ toString ic.1 ++ "-" ++ toString jp.1
              else jp.2.name
             protocol := if jp.2.protocol = "" then protocolTCP
              else jp.2.protocol
             port := jp.2.containerPort
             targetPort := IntOrString.int jp.2.containerPort } : ServicePort)))
        = ((fun c : Container => c.ports.length) ∘ Prod.snd) from by
      funext ic
      simp]
    rw [← List.map_map, hsnd]
  · intro isp hisp
    have hgen : sc.GenerateService =
        if (stackServicePorts sc.stack.spec).any
            (matchesBackendPort isp.backendPort) then
          Except.ok
            { meta := sc.resourceMeta
              selector := limitLabels sc.stack.meta.labels selectorLabels
              ports := stackServicePorts sc.stack.spec }
        else Except.error (errPortMismatch isp.backendPort) := by
      simp only [StackContainer.GenerateService, getServicePorts, hisp,
        Option.map_some']
      by_cases hany :
          (stackServicePorts sc.stack.spec).any
            (matchesBackendPort isp.backendPort) <;>
        simp [hany]
    by_cases hany :
        (stackServicePorts sc.stack.spec).any (matchesBackendPort isp.backendPort)
    · have hex : ∃ q ∈ stackServicePorts sc.stack.spec,
          (∃ v, isp.backendPort = IntOrString.int v ∧ q.port = v) ∨
          (∃ nm, isp.backendPort = IntOrString.str nm ∧ q.name = nm) := by
        rcases List.any_eq_true.mp hany with ⟨q, hq, hmq⟩
        exact ⟨q, hq, (hmatch isp.backendPort q).mp hmq⟩
      refine ⟨⟨fun _ => hex, fun _ => ?_⟩, fun hno => absurd hex hno⟩
      rw [hgen, if_pos hany]
      exact ⟨_, rfl⟩
    · have hnex : ¬ ∃ q ∈ stackServicePorts sc.stack.spec,
          (∃ v, isp.backendPort = IntOrString.int v ∧ q.port = v) ∨
          (∃ nm, isp.backendPort = IntOrString.str nm ∧ q.name = nm) := by
        rintro ⟨q, hq, hmq⟩
        exact hany (List.any_eq_true.mpr ⟨q, hq, (hmatch isp.backendPort q).mpr hmq⟩)
      constructor
      · constructor
        · rintro ⟨s, hs⟩
          rw [hgen, if_neg hany] at hs
          cases hs
        · intro hex
          exact absurd hex hnex
      · intro _
        rw [hgen, if_neg hany]

/-- Witness for the amended C5 at `exEmptySvc`: the autoscaler spec is
present and the empty service block routes port selection to the
synthesized container ports. -/
theorem generateService_ports_spec_witness :
    exEmptySvc.stack.spec.autoscaler.isSome = true ∧
    (∀ s, exEmptySvc.GenerateService = Except.ok s →
      s.ports =
        servicePortsFromContainers
          exEmptySvc.stack.spec.podTemplate.containers) :=
  ⟨by decide,
    (generateService_ports_spec exEmptySvc (Or.inl (by decide))).2.1
      (Or.inr ⟨{ ports := [] }, rfl, rfl⟩)⟩

/-- C5 (counterexample): a present service block listing no ports does
not supply the generated ports; they are synthesized from the container
ports instead, so the claim that the ports come from the service block
whenever it is present fails. -/
theorem generateService_ports_counterexample :
    exEmptySvc.stack.spec.autoscaler.isSome = true ∧
    exEmptySvc.stack.spec.service = some { ports := [] } ∧
    exEmptySvc.GenerateService = Except.ok exEmptySvcOut ∧
    exEmptySvcOut.ports ≠ [] ∧
    ¬ (∀ s, exEmptySvc.GenerateService = Except.ok s →
        ∀ tsvc, exEmptySvc.stack.spec.service = some tsvc →
          s.ports = tsvc.ports) := by
  refine ⟨by decide, rfl, rfl, by decide, fun hall => ?_⟩
  exact absurd (hall exEmptySvcOut rfl { ports := [] } rfl) (by decide)

/-- Reading a marked list at a position: the original container, with
the flag set when the position is marked. -/
theorem markList_getElem? (scs : List StackContainer) (idxs : List Nat)
    (i : Nat) :
    (markList scs idxs)[i]? = scs[i]?.map (fun sc =>
      if i ∈ idxs then { sc with pendingRemoval := true } else sc) := by
  simp only [markList, List.getElem?_map, List.enum, List.getElem?_enumFrom,
    Nat.zero_add]
  cases scs[i]? <;> simp

/-- Filtering an enumeration on a property of the element alone keeps
the same length as filtering the plain list. -/
theorem filter_enumFrom_length {α : Type} (q : α → Bool) (n : Nat)
    (l : List α) :
    ((List.enumFrom n l).filter (fun p => q p.2)).length =
      (l.filter q).length := by
  induction l generalizing n with
  | nil => rfl
  | cons a t ih =>
    by_cases hq : q a <;>
      simp [List.enumFrom_cons, List.filter_cons, hq, ih]

theorem gcCandidatesOf_length (ssc : StackSetContainer) :
    (gcCandidatesOf ssc).length =
      (ssc.stackContainers.filter isGCCandidate).length := by
  simpa [gcCandidatesOf, List.enum] using
    filter_enumFrom_length isGCCandidate 0 ssc.stackContainers

theorem mem_gcCandidatesOf {ssc : StackSetContainer} {i : Nat}
    {sc : StackContainer} :
    (i, sc) ∈ gcCandidatesOf ssc ↔
      ssc.stackContainers[i]? = some sc ∧ isGCCandidate sc = true := by
  simp [gcCandidatesOf, List.mem_filter, List.mk_mem_enum_iff_getElem?]

/-- The sorted candidate list is pairwise ordered by creation
timestamp. -/
theorem sortedCandidates_pairwise (ssc : StackSetContainer) :
    ((gcCandidatesOf ssc).mergeSort candidateLe).Pairwise
      (fun a b => candidateLe a b = true) := by
  have htrans : ∀ a b c : Nat × StackContainer,
      candidateLe a b → candidateLe b c → candidateLe a c := by
    intro a b c hab hbc
    simp only [candidateLe, decide_eq_true_eq] at *
    omega
  have htotal : ∀ a b : Nat × StackContainer,
      candidateLe a b || candidateLe b a := by
    intro a b
    simp only [candidateLe, Bool.or_eq_true, decide_eq_true_eq]
    omega
  exact List.sorted_mergeSort htrans htotal (gcCandidatesOf ssc)

theorem markedIdxs_nodup (ssc : StackSetContainer) : (markedIdxs ssc).Nodup := by
  have h1 : ((gcCandidatesOf ssc).map Prod.fst).Nodup := by
    have hsub : List.Sublist ((gcCandidatesOf ssc).map Prod.fst)
        (ssc.stackContainers.enum.map Prod.fst) :=
      (List.filter_sublist _).map Prod.fst
    exact List.Nodup.sublist hsub (List.nodup_enum_map_fst _)
  have h2 : (((gcCandidatesOf ssc).mergeSort candidateLe).map Prod.fst).Nodup :=
    ((List.mergeSort_perm (gcCandidatesOf ssc) candidateLe).map
      Prod.fst).nodup_iff.mpr h1
  have h3 : markedIdxs ssc =
      ((((gcCandidatesOf ssc).mergeSort candidateLe).map Prod.fst).take
        (((gcCandidatesOf ssc).length : Int) - ssc.historyLimit).toNat) := by
    simp [markedIdxs, List.map_take]
  rw [h3]
  exact List.Nodup.sublist (List.take_sublist _ _) h2

theorem markedIdxs_lt (ssc : StackSetContainer) (a : Nat)
    (h : a ∈ markedIdxs ssc) : a < ssc.stackContainers.length := by
  rcases List.mem_map.mp h with ⟨⟨i, sc⟩, hpr, hfst⟩
  have hia : i = a := hfst
  subst hia
  have h1 : (i, sc) ∈ (gcCandidatesOf ssc).mergeSort candidateLe :=
    List.mem_of_mem_take hpr
  have h2 := (mem_gcCandidatesOf).mp (List.mem_mergeSort.mp h1)
  rcases List.getElem?_eq_some_iff.mp h2.1 with ⟨hlt, _⟩
  exact hlt

/-- Membership in the marked positions, at a position whose container is
known. -/
theorem mem_markedIdxs {ssc : StackSetContainer} {i : Nat}
    {sc : StackContainer} (hi : ssc.stackContainers[i]? = some sc) :
    i ∈ markedIdxs ssc ↔
      (i, sc) ∈ ((gcCandidatesOf ssc).mergeSort candidateLe).take
        (((gcCandidatesOf ssc).length : Int) - ssc.historyLimit).toNat := by
  constructor
  · intro h
    rcases List.mem_map.mp h with ⟨⟨i2, sc2⟩, hmem, hfst⟩
    have hii : i2 = i := hfst
    subst hii
    have h1 : (i2, sc2) ∈ (gcCandidatesOf ssc).mergeSort candidateLe :=
      List.mem_of_mem_take hmem
    have h2 := (mem_gcCandidatesOf).mp (List.mem_mergeSort.mp h1)
    rw [hi] at h2
    obtain ⟨h3, _⟩ := h2
    injection h3 with h3
    rw [h3]
    exact hmem
  · intro h
    exact List.mem_map.mpr ⟨(i, sc), h, rfl⟩

/-- A marked position holds a gc candidate. -/
theorem markedIdxs_candidate {ssc : StackSetContainer} {i : Nat}
    {sc : StackContainer} (hi : ssc.stackContainers[i]? = some sc)
    (h : i ∈ markedIdxs ssc) : isGCCandidate sc = true := by
  have h1 := (mem_markedIdxs hi).mp h
  have h2 := (mem_gcCandidatesOf).mp
    (List.mem_mergeSort.mp (List.mem_of_mem_take h1))
  exact h2.2

/-- Position-wise description of `MarkExpiredStacks`. -/
theorem markExpiredStacks_getElem? (ssc : StackSetContainer) (i : Nat) :
    (ssc.MarkExpiredStacks).stackContainers[i]? =
      if ((gcCandidatesOf ssc).length : Int) ≤ ssc.historyLimit then
        ssc.stackContainers[i]?
      else
        ssc.stackContainers[i]?.map (fun sc =>
          if i ∈ markedIdxs ssc then { sc with pendingRemoval := true }
          else sc) := by
  unfold StackSetContainer.MarkExpiredStacks
  split
  · rfl
  · exact markList_getElem? ssc.stackContainers (markedIdxs ssc) i

/-- C2: MarkExpiredStacks marks exactly the oldest excess gc candidates.
With every flag initially clear and a non-negative limit (a negative
limit would crash the source on the slice bound): nothing changes when
the candidates fit the limit; a non-candidate is never touched; every
container is either kept as is or marked while being a candidate; the
number of marked stacks is max(0, |candidates| - limit); and every
marked stack is at most as young as every unmarked candidate. -/
theorem markExpiredStacks_spec (ssc : StackSetContainer)
    (hlim : 0 ≤ ssc.historyLimit)
    (hflags : ∀ sc ∈ ssc.stackContainers, sc.pendingRemoval = false) :
    ((((ssc.stackContainers.filter isGCCandidate).length : Int) ≤
        ssc.historyLimit → ssc.MarkExpiredStacks = ssc) ∧
      (∀ (i : Nat) (sc : StackContainer),
        ssc.stackContainers[i]? = some sc →
        isGCCandidate sc = false →
        (ssc.MarkExpiredStacks).stackContainers[i]? = some sc) ∧
      (∀ (i : Nat) (sc sc' : StackContainer),
        ssc.stackContainers[i]? = some sc →
        (ssc.MarkExpiredStacks).stackContainers[i]? = some sc' →
        sc' = sc ∨ (isGCCandidate sc = true ∧
          sc' = { sc with pendingRemoval := true })) ∧
      ((((ssc.MarkExpiredStacks).stackContainers.filter
          (fun sc => sc.pendingRemoval)).length : Int) =
        max 0 (((ssc.stackContainers.filter isGCCandidate).length : Int) -
          ssc.historyLimit)) ∧
      (∀ (i j : Nat) (sci scj sci' scj' : StackContainer),
        ssc.stackContainers[i]? = some sci →
        ssc.stackContainers[j]? = some scj →
        (ssc.MarkExpiredStacks).stackContainers[i]? = some sci' →
        (ssc.MarkExpiredStacks).stackContainers[j]? = some scj' →
        sci'.pendingRemoval = true → isGCCandidate scj = true →
        scj'.pendingRemoval = false →
        sci.stack.meta.creationTimestamp ≤
          scj.stack.meta.creationTimestamp)) := by
  by_cases hle : ((gcCandidatesOf ssc).length : Int) ≤ ssc.historyLimit
  · have hres : ssc.MarkExpiredStacks = ssc := by
      unfold StackSetContainer.MarkExpiredStacks
      rw [if_pos hle]
    refine ⟨fun _ => hres, ?_, ?_, ?_, ?_⟩
    · intro i sc hi _
      rw [hres]
      exact hi
    · intro i sc sc' hi h'
      rw [hres, hi] at h'
      injection h' with h'
      exact Or.inl h'.symm
    · rw [hres]
      have hnil : ssc.stackContainers.filter (fun sc => sc.pendingRemoval) = [] :=
        List.filter_eq_nil_iff.mpr (fun sc hsc => by simp [hflags sc hsc])
      rw [hnil]
      rw [← gcCandidatesOf_length]
      simp only [List.length_nil]
      omega
    · intro i j sci scj sci' scj' hi hj hi' hj' hflag hcand hflag'
      rw [hres, hi] at hi'
      injection hi' with hi'
      rw [← hi'] at hflag
      rw [hflags sci (List.getElem?_mem hi)] at hflag
      cases hflag
  · have hres : (ssc.MarkExpiredStacks).stackContainers =
        markList ssc.stackContainers (markedIdxs ssc) := by
      unfold StackSetContainer.MarkExpiredStacks
      rw [if_neg hle]
    refine ⟨?_, ?_, ?_, ?_, ?_⟩
    · intro hX
      rw [← gcCandidatesOf_length] at hX
      exact absurd hX hle
    · intro i sc hi hcand
      have hni : i ∉ markedIdxs ssc := fun hmem =>
        by rw [markedIdxs_candidate hi hmem] at hcand; cases hcand
      rw [hres, markList_getElem?, hi]
      simp [hni]
    · intro i sc sc' hi h'
      rw [hres, markList_getElem?, hi] at h'
      simp only [Option.map_some', Option.some.injEq] at h'
      by_cases hmi : i ∈ markedIdxs ssc
      · rw [if_pos hmi] at h'
        exact Or.inr ⟨markedIdxs_candidate hi hmi, h'.symm⟩
      · rw [if_neg hmi] at h'
        exact Or.inl h'.symm
    · rw [hres]
      have hs1 : ((markList ssc.stackContainers (markedIdxs ssc)).filter
          (fun sc => sc.pendingRemoval)).length =
          List.countP
            (fun p : Nat × StackContainer => decide (p.1 ∈ markedIdxs ssc))
            ssc.stackContainers.enum := by
        rw [← List.countP_eq_length_filter]
        unfold markList
        rw [List.countP_map]
        apply List.countP_congr
        intro p hp
        have hmem : p.2 ∈ ssc.stackContainers :=
          List.getElem?_mem (List.mem_enum_iff_getElem?.mp hp)
        have hfl := hflags p.2 hmem
        by_cases hpi : p.1 ∈ markedIdxs ssc <;>
          simp [Function.comp, hpi, hfl]
      have hs2 : List.countP
          (fun p : Nat × StackContainer => decide (p.1 ∈ markedIdxs ssc))
          ssc.stackContainers.enum =
          List.countP (fun i => decide (i ∈ markedIdxs ssc))
            (ssc.stackContainers.enum.map Prod.fst) := by
        rw [List.countP_map]
        rfl
      have hs3 : ssc.stackContainers.enum.map Prod.fst =
          List.range ssc.stackContainers.length := by
        simp [List.enum, List.enumFrom_map_fst, List.range_eq_range']
      have hs4 : List.countP (fun i => decide (i ∈ markedIdxs ssc))
          (List.range ssc.stackContainers.length) =
          (markedIdxs ssc).length := by
        rw [List.countP_eq_length_filter]
        have hperm : ((List.range ssc.stackContainers.length).filter
            (fun i => decide (i ∈ markedIdxs ssc))).Perm (markedIdxs ssc) := by
          rw [List.perm_ext_iff_of_nodup
            ((List.nodup_range _).filter _) (markedIdxs_nodup ssc)]
          intro a
          simp only [List.mem_filter, List.mem_range, decide_eq_true_eq]
          exact ⟨fun h => h.2, fun h => ⟨markedIdxs_lt ssc a h, h⟩⟩
        exact hperm.length_eq
      have hs5 : (markedIdxs ssc).length =
          (((gcCandidatesOf ssc).length : Int) - ssc.historyLimit).toNat := by
        unfold markedIdxs
        rw [List.length_map, List.length_take, List.length_mergeSort]
        omega
      rw [hs1, hs2, hs3, hs4, hs5, ← gcCandidatesOf_length]
      omega
    · intro i j sci scj sci' scj' hi hj hi' hj' hflag hcand hflag'
      rw [hres, markList_getElem?, hi] at hi'
      rw [hres, markList_getElem?, hj] at hj'
      simp only [Option.map_some', Option.some.injEq] at hi' hj'
      by_cases hmi : i ∈ markedIdxs ssc
      · by_cases hmj : j ∈ markedIdxs ssc
        · rw [if_pos hmj] at hj'
          rw [← hj'] at hflag'
          cases hflag'
        · have hti := (mem_markedIdxs hi).mp hmi
          have htj : (j, scj) ∈ (gcCandidatesOf ssc).mergeSort candidateLe :=
            List.mem_mergeSort.mpr (mem_gcCandidatesOf.mpr ⟨hj, hcand⟩)
          set k := (((gcCandidatesOf ssc).length : Int) -
            ssc.historyLimit).toNat with hk
          have hsplit : (j, scj) ∈
              ((gcCandidatesOf ssc).mergeSort candidateLe).take k ++
                ((gcCandidatesOf ssc).mergeSort candidateLe).drop k := by
            rw [List.take_append_drop]
            exact htj
          have htj2 : (j, scj) ∈
              ((gcCandidatesOf ssc).mergeSort candidateLe).drop k := by
            rcases List.mem_append.mp hsplit with hin | hin
            · exact absurd ((mem_markedIdxs hj).mpr hin) hmj
            · exact hin
          have hpw : (((gcCandidatesOf ssc).mergeSort candidateLe).take k ++
              ((gcCandidatesOf ssc).mergeSort candidateLe).drop k).Pairwise
              (fun a b => candidateLe a b = true) := by
            rw [List.take_append_drop]
            exact sortedCandidates_pairwise ssc
          have hle2 := (List.pairwise_append.mp hpw).2.2 _ hti _ htj2
          simpa [candidateLe] using hle2
      · rw [if_neg hmi] at hi'
        rw [← hi'] at hflag
        rw [hflags sci (List.getElem?_mem hi)] at hflag
        cases hflag

/-- Witness for C2 at `exGC`: two ingress-less stacks against a limit of
one mark exactly one stack. -/
theorem markExpiredStacks_spec_witness :
    0 ≤ exGC.historyLimit ∧
    (((exGC.MarkExpiredStacks).stackContainers.filter
        (fun sc => sc.pendingRemoval)).length : Int) =
      max 0 (((exGC.stackContainers.filter isGCCandidate).length : Int) -
        exGC.historyLimit) :=
  ⟨by decide, (markExpiredStacks_spec exGC (by decide) (by decide)).2.2.2.1⟩

/-- C7: after MarkExpiredStacks, a stack that has traffic is never
pending removal, given the data-model invariant that an ingress-less
stack has no traffic and that the flags start out clear. -/
theorem hasTraffic_never_marked (ssc : StackSetContainer)
    (hinv : ∀ sc ∈ ssc.stackContainers,
      sc.ingressSpec = none → sc.HasTraffic = false)
    (hflags : ∀ sc ∈ ssc.stackContainers, sc.pendingRemoval = false) :
    ∀ sc ∈ (ssc.MarkExpiredStacks).stackContainers,
      sc.HasTraffic = true → sc.pendingRemoval = false := by
  intro sc hmem htraffic
  rcases List.mem_iff_getElem?.mp hmem with ⟨i, hi⟩
  rw [markExpiredStacks_getElem? ssc i] at hi
  split at hi
  · exact hflags sc (List.getElem?_mem hi)
  · rcases hsome : ssc.stackContainers[i]? with _ | sc0
    · rw [hsome] at hi
      cases hi
    · rw [hsome] at hi
      simp only [Option.map_some', Option.some.injEq] at hi
      by_cases hmi : i ∈ markedIdxs ssc
      · exfalso
        rw [if_pos hmi] at hi
        have hcand := markedIdxs_candidate hsome hmi
        have ht0 : sc0.HasTraffic = true := by
          rw [← hi] at htraffic
          simpa [StackContainer.HasTraffic] using htraffic
        have hcand2 : sc0.ingressSpec = none ∨ sc0.ScaledDown = true := by
          simpa [isGCCandidate] using hcand
        rcases hcand2 with hno | hsd
        · rw [hinv sc0 (List.getElem?_mem hsome) hno] at ht0
          cases ht0
        · have hfalse : sc0.ScaledDown = false := by
            simp [StackContainer.ScaledDown, ht0]
          rw [hfalse] at hsd
          cases hsd
      · rw [if_neg hmi] at hi
        rw [← hi]
        exact hflags sc0 (List.getElem?_mem hsome)

/-- Witness for C7 at `exServing`: the serving stack keeps its clear
flag. -/
theorem hasTraffic_never_marked_witness : exServingC.pendingRemoval = false :=
  hasTraffic_never_marked exServing (by decide) (by decide) exServingC
    (by decide) (by decide)

theorem lookupWeight_map_replace (t : WeightMap) (k : String) (v : Rat)
    (k' : String) (hk : k ≠ k') :
    lookupWeight (t.map (fun p => if p.1 = k then (k, v) else p)) k' =
      lookupWeight t k' := by
  induction t with
  | nil => rfl
  | cons p t ih =>
    by_cases hp : p.1 = k
    · subst hp
      simp only [List.map_cons, if_pos rfl]
      have hp' : ¬ p.1 = k' := hk
      simp [lookupWeight, hp', ih]
    · simp only [List.map_cons, if_neg hp]
      by_cases hp' : p.1 = k' <;> simp [lookupWeight, hp', ih]

theorem lookupWeight_append_single (m : WeightMap) (k : String) (v : Rat)
    (k' : String) (hk : k ≠ k') :
    lookupWeight (m ++ [(k, v)]) k' = lookupWeight m k' := by
  induction m with
  | nil => simp [lookupWeight, hk]
  | cons p t ih =>
    by_cases hp : p.1 = k' <;> simp [lookupWeight, hp, ih]

theorem lookupWeight_setWeight_self (m : WeightMap) (k : String) (v : Rat) :
    lookupWeight (setWeight m k v) k = some v := by
  unfold setWeight
  split
  case isTrue h =>
    induction m with
    | nil => simp [lookupWeight] at h
    | cons p t ih =>
      by_cases hp : p.1 = k
      · simp [lookupWeight, hp]
      · simp only [lookupWeight, hp, if_false] at h
        simpa [lookupWeight, hp] using ih h
  case isFalse h =>
    induction m with
    | nil => simp [lookupWeight]
    | cons p t ih =>
      by_cases hp : p.1 = k
      · simp [lookupWeight, hp] at h
      · simp only [lookupWeight, hp, if_false] at h
        simpa [lookupWeight, hp] using ih h

theorem lookupWeight_setWeight_other (m : WeightMap) (k : String) (v : Rat)
    (k' : String) (hk : k ≠ k') :
    lookupWeight (setWeight m k v) k' = lookupWeight m k' := by
  unfold setWeight
  split
  · exact lookupWeight_map_replace m k v k' hk
  · exact lookupWeight_append_single m k v k' hk

/-- Folding the weight loop over containers that never write the key
leaves the key untouched. -/
theorem buildWeightsAux_lookup_none (f : StackContainer → Rat)
    (name : String) :
    ∀ (l : List StackContainer),
      (∀ sc ∈ l, sc.Name = name → ¬ 0 < f sc) → ∀ acc : WeightMap,
      lookupWeight
        (l.foldl (fun m sc => if 0 < f sc then setWeight m sc.Name (f sc)
          else m) acc) name = lookupWeight acc name := by
  intro l
  induction l with
  | nil => intro _ acc; rfl
  | cons sc t ih =>
    intro h acc
    simp only [List.foldl_cons]
    by_cases hf : 0 < f sc
    · rw [if_pos hf]
      rw [ih (fun x hx => h x (List.mem_cons_of_mem _ hx)) _]
      exact lookupWeight_setWeight_other _ _ _ _
        (fun he => h sc (List.mem_cons_self _ _) he hf)
    · rw [if_neg hf]
      exact ih (fun x hx => h x (List.mem_cons_of_mem _ hx)) acc

/-- Folding the weight loop over containers with distinct names writes
the weight of the (unique) positively weighted container of that name. -/
theorem buildWeightsAux_lookup_mem (f : StackContainer → Rat)
    (name : String) (sc0 : StackContainer) :
    ∀ (l : List StackContainer), sc0 ∈ l → sc0.Name = name → 0 < f sc0 →
      (l.map StackContainer.Name).Nodup → ∀ acc : WeightMap,
      lookupWeight
        (l.foldl (fun m sc => if 0 < f sc then setWeight m sc.Name (f sc)
          else m) acc) name = some (f sc0) := by
  intro l
  induction l with
  | nil => intro h; cases h
  | cons sc t ih =>
    intro hmem hname hf hnodup acc
    have hcons : (∀ x ∈ t, ¬ x.Name = sc.Name) ∧
        (t.map StackContainer.Name).Nodup := by
      simpa using hnodup
    simp only [List.foldl_cons]
    rcases List.mem_cons.mp hmem with heq | hmem2
    · subst heq
      rw [if_pos hf]
      have hts : ∀ x ∈ t, x.Name = name → ¬ 0 < f x := by
        intro x hx he _
        exact hcons.1 x hx (by rw [he, ← hname])
      rw [buildWeightsAux_lookup_none f name t hts _]
      rw [← hname]
      exact lookupWeight_setWeight_self acc sc0.Name (f sc0)
    · by_cases hfh : 0 < f sc
      · rw [if_pos hfh]
        exact ih hmem2 hname hf hcons.2 _
      · rw [if_neg hfh]
        exact ih hmem2 hname hf hcons.2 _

/-- The weight map built by the shared-ingress generator holds exactly
the positively weighted containers, keyed by name. -/
theorem buildWeights_lookup (f : StackContainer → Rat)
    (l : List StackContainer)
    (hnodup : (l.map StackContainer.Name).Nodup) (name : String) (w : Rat) :
    lookupWeight (buildWeights f l) name = some w ↔
      ∃ sc ∈ l, sc.Name = name ∧ 0 < f sc ∧ f sc = w := by
  constructor
  · intro h
    by_cases hex : ∃ sc ∈ l, sc.Name = name ∧ 0 < f sc
    · rcases hex with ⟨sc0, hm, hn, hf⟩
      unfold buildWeights at h
      rw [buildWeightsAux_lookup_mem f name sc0 l hm hn hf hnodup []] at h
      injection h with h
      exact ⟨sc0, hm, hn, hf, h⟩
    · unfold buildWeights at h
      rw [buildWeightsAux_lookup_none f name l
        (fun sc hm hn hf => hex ⟨sc, hm, hn, hf⟩) []] at h
      cases h
  · rintro ⟨sc0, hm, hn, hf, hw⟩
    unfold buildWeights
    rw [buildWeightsAux_lookup_mem f name sc0 l hm hn hf hnodup [], hw]

/-- C3: with an ingress spec present, shared-ingress generation fails
with the no-paths error exactly when no stack has positive actual
weight; on success there is one rule per host, each rule carries one
path per positively weighted stack with the backend service names
strictly sorted (hence duplicate free), and the two weight annotations
hold exactly the positive actual and positive desired weights. -/
theorem generateIngress_shared_spec (ssc : StackSetContainer)
    (isp : StackSetIngressSpec)
    (hing : ssc.stackSet.spec.ingress = some isp)
    (hnames : (ssc.stackContainers.map StackContainer.Name).Nodup) :
    (ssc.GenerateIngress = Except.error errNoPaths ↔
      ∀ sc ∈ ssc.stackContainers, ¬ 0 < sc.actualTrafficWeight) ∧
    (∀ ing : Ingress, ssc.GenerateIngress = Except.ok (some ing) →
      ing.rules.map (fun r => r.host) = isp.hosts ∧
      (∀ r ∈ ing.rules,
        (r.paths.map (fun p => p.serviceName)).Pairwise (fun a b => a < b) ∧
        (∀ name, name ∈ r.paths.map (fun p => p.serviceName) ↔
          ∃ sc ∈ ssc.stackContainers, sc.Name = name ∧
            0 < sc.actualTrafficWeight)) ∧
      (∀ name w, lookupWeight ing.backendWeights name = some w ↔
        ∃ sc ∈ ssc.stackContainers, sc.Name = name ∧
          0 < sc.actualTrafficWeight ∧ sc.actualTrafficWeight = w) ∧
      (∀ name w, lookupWeight ing.trafficWeights name = some w ↔
        ∃ sc ∈ ssc.stackContainers, sc.Name = name ∧
          0 < sc.desiredTrafficWeight ∧ sc.desiredTrafficWeight = w)) := by
  have hemp_iff : ((ssc.stackContainers.filter
      (fun sc => decide (0 < sc.actualTrafficWeight))).map
        (fun sc => ({ path := isp.path, serviceName := sc.Name, servicePort := isp.backendPort } : HTTPIngressPath))) = [] ↔
      ∀ sc ∈ ssc.stackContainers, ¬ 0 < sc.actualTrafficWeight := by
    simp [List.filter_eq_nil_iff]
  constructor
  · simp only [StackSetContainer.GenerateIngress, hing]
    split
    case isTrue hemp =>
      rw [List.isEmpty_iff] at hemp
      exact ⟨fun _ => hemp_iff.mp hemp, fun _ => rfl⟩
    case isFalse hemp =>
      rw [List.isEmpty_iff] at hemp
      constructor
      · intro h
        simp at h
      · intro hall
        exact absurd (hemp_iff.mpr hall) hemp
  · intro ing h
    simp only [StackSetContainer.GenerateIngress, hing] at h
    split at h
    case isTrue hemp => simp at h
    case isFalse hemp =>
      simp only [Except.ok.injEq, Option.some.injEq] at h
      subst h
      have htrans : ∀ a b c : HTTPIngressPath,
          decide (a.serviceName ≤ b.serviceName) →
          decide (b.serviceName ≤ c.serviceName) →
          decide (a.serviceName ≤ c.serviceName) := by
        intro a b c hab hbc
        simp only [decide_eq_true_eq] at *
        exact le_trans hab hbc
      have htotal : ∀ a b : HTTPIngressPath,
          decide (a.serviceName ≤ b.serviceName) ||
            decide (b.serviceName ≤ a.serviceName) := by
        intro a b
        simp only [Bool.or_eq_true, decide_eq_true_eq]
        exact le_total _ _
      refine ⟨?_, ?_, ?_, ?_⟩
      · simp only [List.map_map]
        show isp.hosts.map (fun host => host) = isp.hosts
        simp
      · intro r hr
        simp only [List.mem_map] at hr
        rcases hr with ⟨host, hhost, hre⟩
        subst hre
        simp only []
        have hperm := (List.mergeSort_perm
          ((ssc.stackContainers.filter
            (fun sc => decide (0 < sc.actualTrafficWeight))).map
              (fun sc => ({ path := isp.path, serviceName := sc.Name, servicePort := isp.backendPort } : HTTPIngressPath)))
          (fun a b => decide (a.serviceName ≤ b.serviceName))).map
          (fun p => p.serviceName)
        have hnodup2 : (((ssc.stackContainers.filter
            (fun sc => decide (0 < sc.actualTrafficWeight))).map
              (fun sc => ({ path := isp.path, serviceName := sc.Name, servicePort := isp.backendPort } : HTTPIngressPath))).map
                  (fun p => p.serviceName)).Nodup := by
          rw [List.map_map]
          exact List.Nodup.sublist ((List.filter_sublist _).map _) hnames
        constructor
        · have hpw_le := List.sorted_mergeSort htrans htotal
            ((ssc.stackContainers.filter
              (fun sc => decide (0 < sc.actualTrafficWeight))).map
                (fun sc => ({ path := isp.path, serviceName := sc.Name, servicePort := isp.backendPort } : HTTPIngressPath)))
          have hle : ((((ssc.stackContainers.filter
              (fun sc => decide (0 < sc.actualTrafficWeight))).map
                (fun sc => ({ path := isp.path, serviceName := sc.Name, servicePort := isp.backendPort } : HTTPIngressPath))).mergeSort
                (fun a b => decide (a.serviceName ≤ b.serviceName))).map
                  (fun p => p.serviceName)).Pairwise (· ≤ ·) := by
            rw [List.pairwise_map]
            exact hpw_le.imp (fun h => by simpa using h)
          have hne := hperm.nodup_iff.mpr hnodup2
          exact (hle.and hne).imp (fun h => lt_of_le_of_ne h.1 h.2)
        · intro name
          constructor
          · intro hname
            rcases List.mem_map.mp hname with ⟨p, hp, hpe⟩
            subst hpe
            rcases List.mem_map.mp (List.mem_mergeSort.mp hp) with ⟨sc, hsc, hsce⟩
            subst hsce
            have hsc2 := List.mem_filter.mp hsc
            exact ⟨sc, hsc2.1, rfl, by simpa using hsc2.2⟩
          · rintro ⟨sc, hsc, hrfl, hpos⟩
            subst hrfl
            exact List.mem_map.mpr
              ⟨{ path := isp.path, serviceName := sc.Name, servicePort := isp.backendPort },
                List.mem_mergeSort.mpr (List.mem_map.mpr
                  ⟨sc, List.mem_filter.mpr ⟨hsc, by simpa using hpos⟩, rfl⟩),
                rfl⟩
      · intro name w
        exact buildWeights_lookup _ _ hnames name w
      · intro name w
        exact buildWeights_lookup _ _ hnames name w

/-- Witness for C3 at `exIngSSC`: the no-paths characterization at a
working set that serves traffic. -/
theorem generateIngress_shared_spec_witness :
    exIngSSC.GenerateIngress = Except.error errNoPaths ↔
      ∀ sc ∈ exIngSSC.stackContainers, ¬ 0 < sc.actualTrafficWeight :=
  (generateIngress_shared_spec exIngSSC
    { path := "/", hosts := ["example.org"] } rfl (by decide)).1
